import Mathlib

/-!
Verification of the NES PPU/bus core (`nass`): a shallow embedding of
`src/ppu/addr_register.rs`, `src/ppu/ppu.rs` and `src/cpu/bus.rs`,
together with theorems settling the specification claims about the
register state machine, the scroll-register algorithms, OAM access and
the bus's DMA/dispatch logic.

Machine integers are embedded as `Nat` with explicit masking/`% 2^w`
where the Rust code relies on wrapping; a Rust `+=` whose overflow is
reachable is embedded as a checked add returning `Option`.  Byte arrays
are embedded as total maps `Nat → Nat`.
-/

/-- Pointwise update of a byte map (embeds a Rust array store `a[i] = v`). -/
def updf (f : Nat → Nat) (i v : Nat) : Nat → Nat :=
  fun j => if j = i then v else f j

/-! ## AddrRegister (src/ppu/addr_register.rs)

The standalone 15-bit "loopy" register.  `value0`/`value1` are the
high/low bytes (u8, `value.0`/`value.1` in the source), `hi_ptr` the
write latch. -/

structure AddrRegister where
  value0 : Nat
  value1 : Nat
  hi_ptr : Bool
deriving DecidableEq, Repr

def AddrRegister.new : AddrRegister :=
  { value0 := 0, value1 := 0, hi_ptr := true }

/-- `get`: `(value.0 << 8) | value.1` as u16. -/
def AddrRegister.get (r : AddrRegister) : Nat :=
  (r.value0 <<< 8) ||| r.value1

/-- `set`: `value.0 = (data >> 8) as u8; value.1 = data & 0xFF`. -/
def AddrRegister.set (r : AddrRegister) (data : Nat) : AddrRegister :=
  { r with value0 := (data >>> 8) % 256, value1 := data &&& 0xFF }

/-- `set_horizontal`: copy coarse X from a raw `t` value. -/
def AddrRegister.set_horizontal (r : AddrRegister) (t_addr : Nat) : AddrRegister :=
  { r with value1 := (r.value1 &&& 0xE0) ||| (t_addr &&& 0x1F) }

/-- `set_vertical`: copy coarse Y (split across the two bytes) from a raw value. -/
def AddrRegister.set_vertical (r : AddrRegister) (t_data : Nat) : AddrRegister :=
  let y_high := (t_data &&& 0x0300) >>> 8
  let y_low := t_data &&& 0x00E0
  { r with value0 := (r.value0 &&& 0xFC) ||| y_high,
           value1 := (r.value1 &&& 0x1F) ||| y_low }

/-- `update`: the two-step $2006 write protocol on `(self, temp)`; returns the
updated register and temp.  First write (`hi_ptr` true) folds the low 6 bits
of `data` into bits 8-13 of `temp` (clearing bit 14); second write sets the
low byte and copies `temp` into `value`; both toggle the latch. -/
def AddrRegister.update (r : AddrRegister) (data temp : Nat) : AddrRegister × Nat :=
  if r.hi_ptr then
    let temp' := ((data &&& 0x003F) <<< 8) ||| (temp &&& 0x00FF)
    ({ r with hi_ptr := !r.hi_ptr }, temp')
  else
    let temp' := (data &&& 0x00FF) ||| (temp &&& 0xFF00)
    ({ r with value0 := (temp' &&& 0xFF00) >>> 8,
              value1 := temp' &&& 0x00FF,
              hi_ptr := !r.hi_ptr }, temp')

/-- `coarse_x_increment`: wrap coarse X at 31, flipping the horizontal
nametable bit; otherwise `value.1 += 1` (the u8 add cannot overflow here
because the low five bits are not all ones, so `value.1 ≠ 0xFF`). -/
def AddrRegister.coarse_x_increment (r : AddrRegister) : AddrRegister :=
  if r.value1 &&& 0x1F = 31 then
    { r with value1 := r.value1 &&& 0xE0, value0 := r.value0 ^^^ 0x04 }
  else
    { r with value1 := (r.value1 + 1) % 256 }

/-- `y_increment`: increment fine Y; once it passes 7 reset it and advance
coarse Y with the 29/31 wrap rules, flipping the vertical nametable bit only
in the 29 case.  The source computes `y` once and writes it back with one
`set`; the three `y` cases are unrolled here so that each branch is a plain
term.  (`value.0 += 0x10` cannot overflow: any `value.0 ≥ 0xF0` has fine
Y = 7 and takes the other branch.) -/
def AddrRegister.y_increment (r : AddrRegister) : AddrRegister :=
  if r.value0 &&& 0x70 ≠ 0x70 then
    { r with value0 := (r.value0 + 0x10) % 256 }
  else
    let r1 : AddrRegister := { r with value0 := r.value0 &&& 0x8F }
    let y := (r1.get &&& 0x03E0) >>> 5
    if y = 29 then
      let r2 : AddrRegister := { r1 with value0 := r1.value0 ^^^ 0x08 }
      r2.set ((r2.get &&& 0xFC1F) ||| (0 <<< 5))
    else if y = 31 then
      r1.set ((r1.get &&& 0xFC1F) ||| (0 <<< 5))
    else
      r1.set ((r1.get &&& 0xFC1F) ||| ((y + 1) <<< 5))

/-- `increment`: add `inc` to the low byte with carry into the high byte,
then mask the whole value to 14 bits. -/
def AddrRegister.increment (r : AddrRegister) (inc : Nat) : AddrRegister :=
  let lo := r.value1
  let r' : AddrRegister := { r with value1 := (r.value1 + inc) % 256 }
  let r' := if r'.value1 < lo then { r' with value0 := (r'.value0 + 1) % 256 } else r'
  if 0x3FFF < r'.get then r'.set (r'.get &&& 0x3FFF) else r'

def AddrRegister.reset_latch (r : AddrRegister) : AddrRegister :=
  { r with hi_ptr := true }

def AddrRegister.toggle_latch (r : AddrRegister) : AddrRegister :=
  { r with hi_ptr := !r.hi_ptr }

/-! Field views of the 15-bit layout `fine_Y(3) | nametable(2) | coarse_Y(5) | coarse_X(5)`
(bit 10 is the horizontal and bit 11 the vertical nametable-select bit; bit
15 of the stored byte pair lies outside the nominal register).  They are
written with `/` and `%` so that the field arithmetic is explicit. -/

def AddrRegister.coarseX (r : AddrRegister) : Nat := r.value1 % 32
def AddrRegister.coarseY (r : AddrRegister) : Nat := r.get / 32 % 32
def AddrRegister.fineY (r : AddrRegister) : Nat := r.value0 / 16 % 8
def AddrRegister.ntH (r : AddrRegister) : Nat := r.value0 / 4 % 2
def AddrRegister.ntV (r : AddrRegister) : Nat := r.value0 / 8 % 2
def AddrRegister.bit15 (r : AddrRegister) : Nat := r.value0 / 128

/-! ## PPU (src/ppu/ppu.rs)

The older in-tree PPU with its own scroll fields (`vram_addr`,
`temp_vram_addr`, `w_toggle`) duplicating the AddrRegister logic. -/

/-- Modelled from the spec: the single-slot `pending_interrupt` with values
{None, NMI, IRQ}.  `ppu.rs` imports `cpu::Interrupt`, whose declaration
(with its `NULL` "no interrupt" sentinel, see spec §9) is not under src/. -/
inductive CpuInterrupt where
  | NULL | NMI | IRQ
deriving DecidableEq, Repr

/-- Scanline phase of the frame (`Status` in ppu.rs). -/
inductive Status where
  | PreRender | PostRender | Render | VerticalBlank
deriving DecidableEq, Repr

structure PPU where
  registers : Nat → Nat
  status : Status
  even_frame : Bool
  show_background : Bool
  show_sprites : Bool
  v_blank : Bool
  sprite_zero : Bool
  vram_addr : Nat
  temp_vram_addr : Nat
  w_toggle : Bool
  oam : Nat → Nat
  secondary_oam : Nat → Nat
  interrupt : CpuInterrupt
  cycle : Nat
  oam_dma : Nat
  vram : Nat → Nat

/-- `PPU::new()`.  The source constructor omits `vram_addr` and
`temp_vram_addr` (the listed fields match power-on zero state); both start
at 0 here. -/
def PPU.new : PPU :=
  { registers := fun _ => 0
    status := Status.PreRender
    even_frame := true
    show_background := false
    show_sprites := false
    v_blank := false
    sprite_zero := false
    vram_addr := 0
    temp_vram_addr := 0
    w_toggle := false
    oam := fun _ => 0
    secondary_oam := fun _ => 0
    interrupt := CpuInterrupt.NULL
    cycle := 0
    oam_dma := 0
    vram := fun _ => 0 }

/-- `clear_status`: clears `v_blank` and the top three bits of the status
register byte.  (It does not touch `w_toggle`; the source comment flags that
as a TODO.) -/
def PPU.clear_status (p : PPU) : PPU :=
  { p with v_blank := false,
           registers := updf p.registers 2 (p.registers 2 &&& 0x1F) }

/-- `step`: one invocation of the per-dot state machine.  On `PreRender` at
`cycle == 1` it clears the status flags; it then flips `even_frame` and
updates `cycle` (`cycle = 0` if it was 340, otherwise `cycle += 8`), and
returns the pending interrupt. -/
def PPU.step (p : PPU) : CpuInterrupt × PPU :=
  let p :=
    match p.status with
    | Status.PreRender => if p.cycle = 1 then p.clear_status else p
    | Status.Render => p
    | Status.PostRender => p
    | Status.VerticalBlank => p
  let p := { p with even_frame := !p.even_frame }
  let p := if p.cycle = 340 then { p with cycle := 0 } else { p with cycle := p.cycle + 8 }
  (p.interrupt, p)

/-- `get_oam_data`: read `oam[registers[3]]`; takes `&self`, so it cannot
advance the cursor. -/
def PPU.get_oam_data (p : PPU) : Nat :=
  p.oam (p.registers 3)

/-- `set_oam_data`: store at the cursor, then `registers[3] += 1`.  The u8
add is unchecked in the source ("hopefully no overflow..."); it is embedded
as a checked add that fails at cursor 255. -/
def PPU.set_oam_data (val : Nat) (p : PPU) : Option PPU :=
  let oam_addr := p.registers 3
  let p' := { p with oam := updf p.oam oam_addr val }
  if oam_addr + 1 ≤ 255 then
    some { p' with registers := updf p'.registers 3 (oam_addr + 1) }
  else
    none

def PPU.reset_oam_addr (p : PPU) : PPU :=
  { p with registers := updf p.registers 3 0 }

/-- `read`: the memory-mapped register read.  It takes `&self` in the
source, so it is a pure function of the state. -/
def PPU.read (addr : Nat) (p : PPU) : Nat :=
  if addr < 8 then
    let a := addr &&& 0x7
    if a = 4 then p.get_oam_data else p.registers a
  else
    p.oam_dma

/-- `read` paired with the (unchanged, by `&self`) post-read state. -/
def PPU.readState (addr : Nat) (p : PPU) : Nat × PPU :=
  (p.read addr, p)

/-- `write`: raw register byte store (the dispatch is a TODO in the source). -/
def PPU.write (addr val : Nat) (p : PPU) : PPU :=
  if addr < 8 then
    { p with registers := updf p.registers (addr &&& 0x7) val }
  else
    { p with oam_dma := val }

/-- `write_twice`: the shared two-step $2005/$2006 write with toggle
`w_toggle`. -/
def PPU.write_twice (reg_n val : Nat) (p : PPU) : PPU :=
  let register := p.registers reg_n
  if p.w_toggle then
    let p :=
      if reg_n = 5 then
        let abcde := val &&& 0xF8
        let fgh := val &&& 0x07
        let t := p.temp_vram_addr &&& 0xC1F
        { p with temp_vram_addr := t ||| (abcde <<< 2) ||| (fgh <<< 12) }
      else p
    let p :=
      if reg_n = 6 then
        let t := (p.temp_vram_addr &&& 0x7F00) ||| val
        { p with temp_vram_addr := t, vram_addr := t }
      else p
    { p with registers := updf p.registers reg_n ((register &&& 0xF0) ||| (val &&& 0x0F)),
             w_toggle := false }
  else
    let p :=
      if reg_n = 5 then
        let c_x_scroll := (val &&& 0xF8) >>> 3
        { p with temp_vram_addr := (p.temp_vram_addr &&& 0xFFE0) ||| c_x_scroll }
      else p
    let p :=
      if reg_n = 6 then
        let cdefgh := (val &&& 0x3F) <<< 8
        { p with temp_vram_addr := (p.temp_vram_addr &&& 0xFF) ||| cdefgh }
      else p
    { p with registers := updf p.registers reg_n ((register &&& 0x0F) ||| ((val <<< 4) % 256)),
             w_toggle := true }

def PPU.get_x_scroll (p : PPU) : Nat :=
  (p.registers 5 &&& 0xF0) >>> 4

def PPU.get_y_scroll (p : PPU) : Nat :=
  p.registers 5 &&& 0x0F

/-- `get_increment`: VRAM increment selected by control-register bit 2. -/
def PPU.get_increment (p : PPU) : Nat :=
  if p.registers 0 &&& 0x4 = 4 then 32 else 1

/-- `set_vram`: $2007 write path; gated on rendering being off or vblank.
`registers[6] += increment` is an unchecked u8 add in the source, embedded
as a checked add. -/
def PPU.set_vram (val : Nat) (p : PPU) : Option PPU :=
  if (!p.show_background && !p.show_sprites) || p.v_blank then
    let ppu_addr := p.registers 6
    let p' := { p with vram := updf p.vram ppu_addr val }
    if ppu_addr + p.get_increment ≤ 255 then
      some { p' with registers := updf p'.registers 6 (ppu_addr + p.get_increment) }
    else
      none
  else
    some p

/-- `get_vram`: $2007 read path; returns the byte at `registers[6]`
directly (no read buffer exists in this PPU — the source marks it
"TODO: buffer?"), or 0 when rendering is active outside vblank.  The
unchecked `registers[6] += increment` is embedded as a checked add. -/
def PPU.get_vram (p : PPU) : Option (Nat × PPU) :=
  if (!p.show_background && !p.show_sprites) || p.v_blank then
    let ppu_addr := p.registers 6
    if ppu_addr + p.get_increment ≤ 255 then
      some (p.vram ppu_addr,
            { p with registers := updf p.registers 6 (ppu_addr + p.get_increment) })
    else
      none
  else
    some (0, p)

/-- `set_controller`: store the control byte and fold its low 2 bits into
`temp_vram_addr` with mask `0x73FF` and shift 8 (the source comment says
"check if << 8 is right later"). -/
def PPU.set_controller (val : Nat) (p : PPU) : PPU :=
  { p with registers := updf p.registers 0 val,
           temp_vram_addr := (p.temp_vram_addr &&& 0x73FF) ||| ((val &&& 0x3) <<< 8) }

/-- `set_mask`: derive `show_background`/`show_sprites` from bits 3/4. -/
def PPU.set_mask (val : Nat) (p : PPU) : PPU :=
  { p with show_background := val &&& 0x08 = 0x08,
           show_sprites := val &&& 0x10 = 0x10 }

/-! ## Bus-side PPU

`bus.rs` dispatches to a PPU with methods `write_to_ctrl`, `mask.update`,
`write_to_oam`, `write_to_scroll`, `write_to_ppu_addr`, `write_data`,
`read_status`, `read_oam`, `read_data`, `tick` and fields `oam_addr`,
`nmi_occured`.  That PPU's implementation is not under src/ (the in-tree
`ppu.rs` above is the older duplicate), so it is modelled from the spec. -/

/-- Modelled from the spec: the register-interface state of the PPU the bus
drives (§3, §4.2): control/mask bytes, the OAM cursor and table, fine X,
the 15-bit `t`/`v` pair with the shared write toggle, the status flags, the
$2007 read buffer, VRAM, and the timing fields the OAM-write gate needs. -/
structure PPUSpec where
  ctrl : Nat
  mask_reg : Nat
  oam_addr : Nat
  oam : Nat → Nat
  fine_x : Nat
  t : Nat
  v : Nat
  write_toggle : Bool
  in_vblank : Bool
  sprite_zero : Bool
  sprite_overflow : Bool
  buffer : Nat
  vram : Nat → Nat
  scanline : Nat
  dot : Nat
  odd_frame : Bool
  show_background : Bool
  show_sprites : Bool

/-- Modelled from the spec: power-on state (everything cleared). -/
def PPUSpec.new : PPUSpec :=
  { ctrl := 0, mask_reg := 0, oam_addr := 0, oam := fun _ => 0, fine_x := 0,
    t := 0, v := 0, write_toggle := false, in_vblank := false,
    sprite_zero := false, sprite_overflow := false, buffer := 0,
    vram := fun _ => 0, scanline := 261, dot := 0, odd_frame := false,
    show_background := false, show_sprites := false }

def PPUSpec.rendering_on (p : PPUSpec) : Bool :=
  p.show_background || p.show_sprites

/-- Modelled from the spec (§4.2 $2004): OAM-data writes are suppressed for
data, but still advance the cursor, during the pre-render or visible lines
while rendering is enabled. -/
def PPUSpec.oam_write_suppressed (p : PPUSpec) : Bool :=
  p.rendering_on && (decide (p.scanline ≤ 239) || decide (p.scanline = 261))

/-- Modelled from the spec ($2000): store the control byte, put its low two
bits into `t`'s nametable-select bits 10-11, and report whether NMI must be
raised now (0→1 on the NMI-enable bit while already in vblank). -/
def PPUSpec.write_to_ctrl (val : Nat) (p : PPUSpec) : Bool × PPUSpec :=
  let nmi := (p.ctrl &&& 0x80 == 0) && (val &&& 0x80 == 0x80) && p.in_vblank
  (nmi, { p with ctrl := val,
                 t := (p.t &&& 0x73FF) ||| ((val &&& 0x3) <<< 10) })

/-- Modelled from the spec ($2001): mask byte, bits 3/4 enable rendering. -/
def PPUSpec.mask_update (val : Nat) (p : PPUSpec) : PPUSpec :=
  { p with mask_reg := val,
           show_background := val &&& 0x08 == 0x08,
           show_sprites := val &&& 0x10 == 0x10 }

/-- Modelled from the spec ($2004 write): store at the cursor unless
suppressed; the cursor always advances by 1 mod 256. -/
def PPUSpec.write_to_oam (val : Nat) (p : PPUSpec) : PPUSpec :=
  if p.oam_write_suppressed then
    { p with oam_addr := (p.oam_addr + 1) % 256 }
  else
    { p with oam := updf p.oam p.oam_addr val,
             oam_addr := (p.oam_addr + 1) % 256 }

/-- Modelled from the spec ($2005): two-step scroll write against `t` and
`fine_x`, toggling the shared latch. -/
def PPUSpec.write_to_scroll (val : Nat) (p : PPUSpec) : PPUSpec :=
  if p.write_toggle then
    { p with t := (p.t &&& 0x0C1F) ||| ((val &&& 0x7) <<< 12) ||| ((val >>> 3) <<< 5),
             write_toggle := false }
  else
    { p with t := (p.t &&& 0x7FE0) ||| (val >>> 3),
             fine_x := val &&& 0x7,
             write_toggle := true }

/-- Modelled from the spec ($2006): two-step address write; the first write
sets bits 8-13 of `t` from the low 6 bits (clearing bit 14), the second
sets the low byte and copies `t` into `v`. -/
def PPUSpec.write_to_ppu_addr (val : Nat) (p : PPUSpec) : PPUSpec :=
  if p.write_toggle then
    let t' := (p.t &&& 0x7F00) ||| (val &&& 0xFF)
    { p with t := t', v := t', write_toggle := false }
  else
    { p with t := (p.t &&& 0x00FF) ||| ((val &&& 0x3F) <<< 8),
             write_toggle := true }

/-- Modelled from the spec: VRAM increment selected by control bit 2. -/
def PPUSpec.increment_amount (p : PPUSpec) : Nat :=
  if p.ctrl &&& 0x4 == 0x4 then 32 else 1

/-- Modelled from the spec (§4.1 `bump`): advance `v`, masked to 14 bits. -/
def PPUSpec.bump (p : PPUSpec) : PPUSpec :=
  { p with v := (p.v + p.increment_amount) &&& 0x3FFF }

/-- Modelled from the spec: the cartridge mapper collaborator, reduced to
its narrow byte-map contract (`read_prg`/`write_prg`/CHR reads/writes; the
borrowed `rom` view is folded into the PRG map). -/
structure MapperS where
  prg : Nat → Nat
  chr : Nat → Nat

def MapperS.read_prg (m : MapperS) (addr : Nat) : Nat := m.prg addr

def MapperS.write_prg (addr val : Nat) (m : MapperS) : MapperS :=
  { m with prg := updf m.prg addr val }

/-- Modelled from the spec ($2007 write): write at `v &&& 0x3FFF` (CHR space
through the mapper below 0x2000, VRAM above), then bump `v`. -/
def PPUSpec.write_data (val : Nat) (m : MapperS) (p : PPUSpec) : MapperS × PPUSpec :=
  let a := p.v &&& 0x3FFF
  if a < 0x2000 then
    ({ m with chr := updf m.chr a val }, p.bump)
  else
    (m, PPUSpec.bump { p with vram := updf p.vram a val })

/-- Modelled from the spec ($2002 read): status byte from bits 7/6/5;
clears `in_vblank` and resets the shared write toggle. -/
def PPUSpec.read_status (p : PPUSpec) : Nat × PPUSpec :=
  ((if p.in_vblank then 0x80 else 0) |||
   (if p.sprite_zero then 0x40 else 0) |||
   (if p.sprite_overflow then 0x20 else 0),
   { p with in_vblank := false, write_toggle := false })

/-- Modelled from the spec ($2004 read): `oam[cursor]`, cursor untouched. -/
def PPUSpec.read_oam (p : PPUSpec) : Nat :=
  p.oam p.oam_addr

/-- Modelled from the spec ($2007 read): below the palette region return the
buffer and refresh it from the byte at `v`; palette reads return directly
while refreshing the buffer from the mirrored nametable byte; `v` bumps
either way. -/
def PPUSpec.read_data (m : MapperS) (p : PPUSpec) : Nat × PPUSpec :=
  let a := p.v &&& 0x3FFF
  let fetched := if a < 0x2000 then m.chr a else p.vram a
  if a < 0x3F00 then
    (p.buffer, PPUSpec.bump { p with buffer := fetched })
  else
    (p.vram a, PPUSpec.bump { p with buffer := p.vram (a - 0x1000) })

/-- Modelled from the spec: the input device, a plain register pass-through
(`joypad.rs` is not under src/). -/
structure Joypad where
  reg : Nat

def Joypad.read (j : Joypad) : Nat × Joypad := (j.reg, j)

def Joypad.write (val : Nat) (_j : Joypad) : Joypad := { reg := val }

/-! ## BUS (src/cpu/bus.rs) -/

/-- `Interrupt` as declared in bus.rs. -/
inductive Interrupt where
  | Nmi | Irq
deriving DecidableEq, Repr

structure BUS where
  ram : Nat → Nat
  mapper : MapperS
  ppu : PPUSpec
  interrupt : Option Interrupt
  suspend : Bool
  joypad : Joypad

/-- The read dispatch without the $2008-$3FFF mirror arm (`BUS.read` below
adds it).  Arms follow bus.rs: RAM masked to 11 bits; write-only registers
and $4014 read 0; $2002/$2004/$2007 read through the PPU; $4016 the joypad;
$4020-$FFFF the mapper; anything else 0. -/
def BUS.readCore (addr : Nat) (s : BUS) : Nat × BUS :=
  if addr ≤ 0x1FFF then
    (s.ram (addr &&& 0x7FF), s)
  else if addr = 0x2000 ∨ addr = 0x2003 ∨ addr = 0x2005 ∨ addr = 0x2006 ∨ addr = 0x4014 then
    (0, s)
  else if addr = 0x2002 then
    let r := s.ppu.read_status
    (r.1, { s with ppu := r.2 })
  else if addr = 0x2004 then
    (s.ppu.read_oam, s)
  else if addr = 0x2007 then
    let r := PPUSpec.read_data s.mapper s.ppu
    (r.1, { s with ppu := r.2 })
  else if addr = 0x4016 then
    let r := s.joypad.read
    (r.1, { s with joypad := r.2 })
  else if 0x4020 ≤ addr ∧ addr ≤ 0xFFFF then
    (s.mapper.read_prg addr, s)
  else
    (0, s)

/-- `BUS::read`.  The source's mirror arm recurses as
`self.read(addr & 0x2007)`, which always lands on a non-mirrored arm; the
recursion is unrolled one level here. -/
def BUS.read (addr : Nat) (s : BUS) : Nat × BUS :=
  if 0x2008 ≤ addr ∧ addr ≤ 0x3FFF then BUS.readCore (addr &&& 0x2007) s
  else BUS.readCore addr s

/-- The $2004 write arm (`self.ppu.write_to_oam(value)`), shared by the
dispatch and the DMA loop (which goes through `self.write(0x2004, value)`). -/
def BUS.write2004 (val : Nat) (s : BUS) : BUS :=
  { s with ppu := s.ppu.write_to_oam val }

/-- One DMA iteration: `let value = self.read(addr + i); self.write(0x2004, value)`. -/
def BUS.dmaStep (base i : Nat) (s : BUS) : BUS :=
  let r := BUS.read (base + i) s
  BUS.write2004 r.1 r.2

/-- The $4014 loop `for i in 0..=0xFF`, iterated `n` times (i ascending). -/
def BUS.dmaLoop (base : Nat) (s : BUS) : Nat → BUS
  | 0 => s
  | n + 1 => BUS.dmaStep base n (BUS.dmaLoop base s n)

/-- The write dispatch without the $2008-$3FFF mirror arm (`BUS.write`
below adds it).  Arms follow bus.rs, including the $4014 OAM-DMA transfer
(set `suspend`, then 256 read/write pairs). -/
def BUS.writeCore (addr val : Nat) (s : BUS) : BUS :=
  if addr ≤ 0x1FFF then
    { s with ram := updf s.ram (addr &&& 0x7FF) val }
  else if addr = 0x2000 then
    let r := s.ppu.write_to_ctrl val
    if r.1 then { s with ppu := r.2, interrupt := some Interrupt.Nmi }
    else { s with ppu := r.2 }
  else if addr = 0x2001 then
    { s with ppu := s.ppu.mask_update val }
  else if addr = 0x2003 then
    { s with ppu := { s.ppu with oam_addr := val } }
  else if addr = 0x2004 then
    BUS.write2004 val s
  else if addr = 0x2005 then
    { s with ppu := s.ppu.write_to_scroll val }
  else if addr = 0x2006 then
    { s with ppu := s.ppu.write_to_ppu_addr val }
  else if addr = 0x2007 then
    let r := PPUSpec.write_data val s.mapper s.ppu
    { s with mapper := r.1, ppu := r.2 }
  else if addr = 0x4016 then
    { s with joypad := Joypad.write val s.joypad }
  else if addr = 0x4014 then
    BUS.dmaLoop ((val &&& 0xFF) <<< 8) { s with suspend := true } 256
  else if 0x4020 ≤ addr ∧ addr ≤ 0xFFFF then
    { s with mapper := MapperS.write_prg addr val s.mapper }
  else
    s

/-- `BUS::write`, with the mirror recursion unrolled one level as in
`BUS.read`. -/
def BUS.write (addr val : Nat) (s : BUS) : BUS :=
  if 0x2008 ≤ addr ∧ addr ≤ 0x3FFF then BUS.writeCore (addr &&& 0x2007) val s
  else BUS.writeCore addr val s

/-- A concrete bus state: RAM page 2 preset to the bytes 0..255, everything
else at power-on. -/
def busExample : BUS :=
  { ram := fun a => if 0x200 ≤ a ∧ a ≤ 0x2FF then a - 0x200 else 0
    mapper := { prg := fun _ => 0, chr := fun _ => 0 }
    ppu := PPUSpec.new
    interrupt := none
    suspend := false
    joypad := { reg := 0 } }

/-! Concrete PPU states used to evaluate the register operations. -/

/-- Rendering disabled, address register 0, `vram[0] = 5`. -/
def ppuVramEx : PPU :=
  { PPU.new with vram := updf PPU.new.vram 0 5 }

/-- In vblank with the write toggle set and status byte `0xE0`. -/
def ppuStatusEx : PPU :=
  { PPU.new with v_blank := true, w_toggle := true,
                 registers := updf PPU.new.registers 2 0xE0 }

/-- OAM cursor at 255 with `oam[255] = 9`. -/
def ppuOam255 : PPU :=
  { PPU.new with registers := updf PPU.new.registers 3 255,
                 oam := updf PPU.new.oam 255 9 }

/-- OAM cursor at 10. -/
def ppuOam10 : PPU :=
  { PPU.new with registers := updf PPU.new.registers 3 10 }

/-! ## Bitfield bridge lemmas

Rewrites turning the source's bitwise operations into `/`, `%` and `*`
arithmetic, so that `omega` can finish field-level goals. -/

/-- A contiguous run of `a` bits starting at bit `b` masks to a shifted
`div`/`mod` field. -/
theorem and_run (x a b : Nat) : x &&& (2 ^ b * (2 ^ a - 1)) = 2 ^ b * (x / 2 ^ b % 2 ^ a) := by
  apply Nat.eq_of_testBit_eq
  intro i
  simp only [Nat.testBit_and, Nat.testBit_mul_pow_two, Nat.testBit_mod_two_pow,
    Nat.testBit_two_pow_sub_one, ← Nat.shiftRight_eq_div_pow, Nat.testBit_shiftRight]
  by_cases hib : b ≤ i
  · have hbi : b + (i - b) = i := by omega
    simp only [ge_iff_le, hib, decide_True, Bool.true_and, hbi]
    cases x.testBit i <;> simp
  · simp [ge_iff_le, hib]

theorem and31 (x : Nat) : x &&& 31 = x % 32 := by
  have h := Nat.and_pow_two_sub_one_eq_mod x 5
  norm_num at h
  exact h

theorem and255 (x : Nat) : x &&& 255 = x % 256 := by
  have h := Nat.and_pow_two_sub_one_eq_mod x 8
  norm_num at h
  exact h

theorem and63 (x : Nat) : x &&& 63 = x % 64 := by
  have h := Nat.and_pow_two_sub_one_eq_mod x 6
  norm_num at h
  exact h

theorem and2047 (x : Nat) : x &&& 2047 = x % 2048 := by
  have h := Nat.and_pow_two_sub_one_eq_mod x 11
  norm_num at h
  exact h

theorem and16383 (x : Nat) : x &&& 16383 = x % 16384 := by
  have h := Nat.and_pow_two_sub_one_eq_mod x 14
  norm_num at h
  exact h

theorem and112 (x : Nat) : x &&& 112 = 16 * (x / 16 % 8) := by
  have h := and_run x 3 4
  norm_num at h
  exact h

theorem and224 (x : Nat) : x &&& 224 = 32 * (x / 32 % 8) := by
  have h := and_run x 3 5
  norm_num at h
  exact h

theorem and992 (x : Nat) : x &&& 992 = 32 * (x / 32 % 32) := by
  have h := and_run x 5 5
  norm_num at h
  exact h

theorem and64512 (x : Nat) : x &&& 64512 = 1024 * (x / 1024 % 64) := by
  have h := and_run x 6 10
  norm_num at h
  exact h

theorem and32512 (x : Nat) : x &&& 32512 = 256 * (x / 256 % 128) := by
  have h := and_run x 7 8
  norm_num at h
  exact h

theorem and128 (x : Nat) : x &&& 128 = 128 * (x / 128 % 2) := by
  have h := and_run x 1 7
  norm_num at h
  exact h

theorem and15 (x : Nat) : x &&& 15 = x % 16 := by
  have h := Nat.and_pow_two_sub_one_eq_mod x 4
  norm_num at h
  exact h

/-- `0x8F` masks to the bit-7 run plus the low nibble. -/
theorem and143 (x : Nat) : x &&& 143 = 128 * (x / 128 % 2) + x % 16 := by
  have hsplit : (143 : Nat) = 128 ||| 15 := by decide
  rw [hsplit, Nat.and_or_distrib_left, and128, and15]
  have h := Nat.mul_add_lt_is_or (i := 7) (b := x % 16) (by omega) (x / 128 % 2)
  norm_num at h
  exact h.symm

/-- `0xFC1F` masks to the bits-10..15 run plus the low five bits. -/
theorem and64543 (x : Nat) : x &&& 64543 = 1024 * (x / 1024 % 64) + x % 32 := by
  have hsplit : (64543 : Nat) = 64512 ||| 31 := by decide
  rw [hsplit, Nat.and_or_distrib_left, and64512, and31]
  have h := Nat.mul_add_lt_is_or (i := 10) (b := x % 32) (by omega) (x / 1024 % 64)
  norm_num at h
  exact h.symm

theorem shl2 (x : Nat) : x <<< 2 = 4 * x := by
  rw [Nat.shiftLeft_eq, show (2 : Nat) ^ 2 = 4 from by norm_num, Nat.mul_comm]

theorem shl4 (x : Nat) : x <<< 4 = 16 * x := by
  rw [Nat.shiftLeft_eq, show (2 : Nat) ^ 4 = 16 from by norm_num, Nat.mul_comm]

theorem shl5 (x : Nat) : x <<< 5 = 32 * x := by
  rw [Nat.shiftLeft_eq, show (2 : Nat) ^ 5 = 32 from by norm_num, Nat.mul_comm]

theorem shl8 (x : Nat) : x <<< 8 = 256 * x := by
  rw [Nat.shiftLeft_eq, show (2 : Nat) ^ 8 = 256 from by norm_num, Nat.mul_comm]

theorem shl12 (x : Nat) : x <<< 12 = 4096 * x := by
  rw [Nat.shiftLeft_eq, show (2 : Nat) ^ 12 = 4096 from by norm_num, Nat.mul_comm]

theorem shr3 (x : Nat) : x >>> 3 = x / 8 := by
  rw [Nat.shiftRight_eq_div_pow, show (2 : Nat) ^ 3 = 8 from by norm_num]

theorem shr5 (x : Nat) : x >>> 5 = x / 32 := by
  rw [Nat.shiftRight_eq_div_pow, show (2 : Nat) ^ 5 = 32 from by norm_num]

theorem shr8 (x : Nat) : x >>> 8 = x / 256 := by
  rw [Nat.shiftRight_eq_div_pow, show (2 : Nat) ^ 8 = 256 from by norm_num]

/-- Disjoint or is addition: value below bit 5. -/
theorem lor32 (c m : Nat) (h : m < 32) : 32 * c ||| m = 32 * c + m := by
  have h' := Nat.mul_add_lt_is_or (i := 5) (b := m) (by omega) c
  norm_num at h'
  exact h'.symm

/-- Disjoint or is addition: value below bit 8. -/
theorem lor256 (c m : Nat) (h : m < 256) : 256 * c ||| m = 256 * c + m := by
  have h' := Nat.mul_add_lt_is_or (i := 8) (b := m) (by omega) c
  norm_num at h'
  exact h'.symm

/-- Disjoint or is addition: value below bit 10. -/
theorem lor1024 (c m : Nat) (h : m < 1024) : 1024 * c ||| m = 1024 * c + m := by
  have h' := Nat.mul_add_lt_is_or (i := 10) (b := m) (by omega) c
  norm_num at h'
  exact h'.symm

/-- Three disjoint ranges: bits ≥ 10, a five-bit field at bit 5, and the low
five bits. -/
theorem or3 (c y m : Nat) (hy : y < 32) (hm : m < 32) :
    (1024 * c + m) ||| 32 * y = 1024 * c + 32 * y + m := by
  have h1 : 1024 * c + m = 1024 * c ||| m := (lor1024 c m (by omega)).symm
  rw [h1, Nat.lor_assoc, Nat.lor_comm m (32 * y), lor32 y m hm,
      lor1024 c (32 * y + m) (by omega)]
  omega

/-- Flipping one bit in a three-way decomposition. -/
theorem xor_mid (k q bb rr : Nat) (hb : bb ≤ 1) (hr : rr < 2 ^ k) :
    (2 ^ (k + 1) * q + 2 ^ k * bb + rr) ^^^ 2 ^ k =
      2 ^ (k + 1) * q + 2 ^ k * (1 - bb) + rr := by
  have hk : (0 : Nat) < 2 ^ k := Nat.two_pow_pos k
  have hpow : 2 ^ (k + 1) = 2 ^ k * 2 := Nat.pow_succ 2 k
  have h1 : 2 ^ k * bb + rr < 2 ^ (k + 1) := by
    interval_cases bb <;> omega
  have h2 : 2 ^ k * (1 - bb) + rr < 2 ^ (k + 1) := by
    interval_cases bb <;> omega
  have e1 : 2 ^ (k + 1) * q + 2 ^ k * bb + rr = 2 ^ (k + 1) * q + (2 ^ k * bb + rr) := by
    omega
  have e2 : 2 ^ (k + 1) * q + 2 ^ k * (1 - bb) + rr
      = 2 ^ (k + 1) * q + (2 ^ k * (1 - bb) + rr) := by
    omega
  apply Nat.eq_of_testBit_eq
  intro i
  rw [e1, e2, Nat.testBit_xor, Nat.testBit_mul_pow_two_add _ h1,
      Nat.testBit_mul_pow_two_add _ h2, Nat.testBit_two_pow]
  rcases Nat.lt_or_ge i k with hik | hik
  · have hik1 : i < k + 1 := by omega
    have hne : k ≠ i := by omega
    rw [if_pos hik1, if_pos hik1, Nat.testBit_mul_pow_two_add bb hr i,
        Nat.testBit_mul_pow_two_add (1 - bb) hr i, if_pos hik, if_pos hik]
    simp [hne]
  · rcases Nat.lt_or_ge i (k + 1) with hik1 | hik1
    · have hik2 : i = k := by omega
      subst hik2
      rw [if_pos hik1, if_pos hik1, Nat.testBit_mul_pow_two_add bb hr i,
          Nat.testBit_mul_pow_two_add (1 - bb) hr i, if_neg (by omega), if_neg (by omega),
          Nat.sub_self]
      interval_cases bb <;> simp [Nat.testBit_zero]
    · have hne : k ≠ i := by omega
      rw [if_neg (by omega : ¬ i < k + 1), if_neg (by omega : ¬ i < k + 1)]
      simp [hne]

/-- The raw 16-bit value of a register built from bounded bytes. -/
theorem get_mk (hi lo : Nat) (bp : Bool) (h : lo < 256) :
    (AddrRegister.mk hi lo bp).get = 256 * hi + lo := by
  show (hi <<< 8) ||| lo = 256 * hi + lo
  rw [shl8, lor256 hi lo h]

/-! ## Claim theorems -/

/-- C2: the per-dot step.  The code advances the dot counter by 8 per
invocation (from the reset grid it even steps over 340, so the wrap branch
is unreachable), never advances any scanline counter, and flips the frame
parity on every invocation — contradicting the documented one-dot-per-step,
341-dot/262-line model with a once-per-frame parity flip. -/
theorem step_placeholder_behaviour :
    (PPU.step PPU.new).2.cycle = 8 ∧
    PPU.new.even_frame = true ∧
    (PPU.step PPU.new).2.even_frame = false ∧
    (PPU.step (PPU.step PPU.new).2).2.even_frame = true ∧
    (PPU.step { PPU.new with cycle := 336 }).2.cycle = 344 := by
  exact ⟨rfl, rfl, rfl, rfl, rfl⟩

/-- C3: a Control write folds the low 2 bits of the value into bits 8-9 of
`t` (shift by 8) instead of the nametable-select bits 10-11: writing 3 to a
cleared register yields `t = 0x0300`, whose nametable field (bits 10-11)
is 0, not 3. -/
theorem set_controller_nametable_shift :
    (PPU.set_controller 3 PPU.new).temp_vram_addr = 0x0300 ∧
    (PPU.set_controller 3 PPU.new).temp_vram_addr / 1024 % 4 = 0 ∧
    (PPU.set_controller 3 PPU.new).temp_vram_addr ≠ 0x0C00 := by
  exact ⟨rfl, rfl, by decide⟩

/-- C4: the $2007 read path has no delayed buffer: with rendering disabled,
address register 0 and `vram[0] = 5`, the very first read returns 5 (the
byte at the current address) rather than a stale buffer value; with
rendering active outside vblank it returns 0; the address register (a
single byte) advances by the increment. -/
theorem get_vram_unbuffered :
    (PPU.get_vram ppuVramEx).map Prod.fst = some 5 ∧
    (PPU.get_vram { ppuVramEx with show_background := true }).map Prod.fst = some 0 ∧
    (PPU.get_vram ppuVramEx).map (fun r => r.2.registers 6) = some 1 := by
  exact ⟨rfl, rfl, rfl⟩

/-- C5: reading the Status register has no side effect in the code:
`PPU::read` takes `&self` (embedded as a pure value plus the unchanged
state), so `in_vblank` and the write toggle survive a $2002 read; and
`clear_status` (the only flag-clearing routine) does not reset the write
toggle either. -/
theorem read_status_no_side_effects :
    (PPU.readState 2 ppuStatusEx).1 = 0xE0 ∧
    (PPU.readState 2 ppuStatusEx).2.v_blank = true ∧
    (PPU.readState 2 ppuStatusEx).2.w_toggle = true ∧
    (PPU.clear_status ppuStatusEx).w_toggle = true := by
  exact ⟨rfl, rfl, rfl, rfl⟩

/-- C8: a $2004 read never touches the cursor (`get_oam_data` is a pure
`&self` read), and a write at cursor 10 stores the byte and advances to 11;
but at cursor 255 the unchecked `registers[3] += 1` overflows (embedded as
the checked add failing) instead of wrapping to 0. -/
theorem set_oam_data_overflow :
    PPU.set_oam_data 7 ppuOam255 = none ∧
    PPU.get_oam_data ppuOam255 = 9 ∧
    (PPU.set_oam_data 7 ppuOam10).map (fun q => (q.registers 3, q.oam 10)) = some (11, 7) := by
  exact ⟨rfl, rfl, rfl⟩

/-- C7: `coarse_x_increment` on any byte-bounded register state: at
coarse X = 31 it wraps to 0 and flips the horizontal nametable bit,
otherwise it adds 1; fine Y, coarse Y, the vertical nametable bit, bit 15
and the latch never change. -/
theorem coarse_x_increment_correct (r : AddrRegister)
    (h0 : r.value0 < 256) (h1 : r.value1 < 256) :
    (if r.coarseX = 31 then
        r.coarse_x_increment.coarseX = 0 ∧ r.coarse_x_increment.ntH = 1 - r.ntH
      else
        r.coarse_x_increment.coarseX = r.coarseX + 1 ∧ r.coarse_x_increment.ntH = r.ntH) ∧
    r.coarse_x_increment.fineY = r.fineY ∧
    r.coarse_x_increment.coarseY = r.coarseY ∧
    r.coarse_x_increment.ntV = r.ntV ∧
    r.coarse_x_increment.bit15 = r.bit15 ∧
    r.coarse_x_increment.hi_ptr = r.hi_ptr := by
  obtain ⟨hi, lo, bp⟩ := r
  simp only at h0 h1
  obtain ⟨q, b2, r2, hq, hb2, hr2⟩ :
      ∃ q b2 r2, hi = 8 * q + 4 * b2 + r2 ∧ b2 < 2 ∧ r2 < 4 :=
    ⟨hi / 8, hi / 4 % 2, hi % 4, by omega, by omega, by omega⟩
  subst hq
  have hxor : (8 * q + 4 * b2 + r2) ^^^ 4 = 8 * q + 4 * (1 - b2) + r2 := by
    have hb4 : r2 < 2 ^ 2 := by
      have hp : (2 : Nat) ^ 2 = 4 := by norm_num
      omega
    have hx := xor_mid 2 q b2 r2 (by omega) hb4
    norm_num at hx
    exact hx
  by_cases hx : lo % 32 = 31
  · have hstep : (AddrRegister.mk (8 * q + 4 * b2 + r2) lo bp).coarse_x_increment
        = AddrRegister.mk (8 * q + 4 * (1 - b2) + r2) (lo &&& 224) bp := by
      simp only [AddrRegister.coarse_x_increment, and31]
      rw [if_pos hx, hxor]
    rw [hstep, if_pos (show (AddrRegister.mk (8 * q + 4 * b2 + r2) lo bp).coarseX = 31 from hx)]
    refine ⟨⟨?_, ?_⟩, ?_, ?_, ?_, ?_, rfl⟩
    · show (lo &&& 224) % 32 = 0
      rw [and224]; omega
    · show (8 * q + 4 * (1 - b2) + r2) / 4 % 2 = 1 - (8 * q + 4 * b2 + r2) / 4 % 2
      omega
    · show (8 * q + 4 * (1 - b2) + r2) / 16 % 8 = (8 * q + 4 * b2 + r2) / 16 % 8
      omega
    · show (AddrRegister.mk (8 * q + 4 * (1 - b2) + r2) (lo &&& 224) bp).get / 32 % 32
        = (AddrRegister.mk (8 * q + 4 * b2 + r2) lo bp).get / 32 % 32
      rw [get_mk _ _ _ (by rw [and224]; omega), get_mk _ _ _ h1, and224]
      omega
    · show (8 * q + 4 * (1 - b2) + r2) / 8 % 2 = (8 * q + 4 * b2 + r2) / 8 % 2
      omega
    · show (8 * q + 4 * (1 - b2) + r2) / 128 = (8 * q + 4 * b2 + r2) / 128
      omega
  · have hstep : (AddrRegister.mk (8 * q + 4 * b2 + r2) lo bp).coarse_x_increment
        = AddrRegister.mk (8 * q + 4 * b2 + r2) ((lo + 1) % 256) bp := by
      simp only [AddrRegister.coarse_x_increment, and31]
      rw [if_neg hx]
    rw [hstep,
      if_neg (show ¬ (AddrRegister.mk (8 * q + 4 * b2 + r2) lo bp).coarseX = 31 from hx)]
    refine ⟨⟨?_, rfl⟩, rfl, ?_, rfl, rfl, rfl⟩
    · show (lo + 1) % 256 % 32 = lo % 32 + 1
      omega
    · show (AddrRegister.mk (8 * q + 4 * b2 + r2) ((lo + 1) % 256) bp).get / 32 % 32
        = (AddrRegister.mk (8 * q + 4 * b2 + r2) lo bp).get / 32 % 32
      rw [get_mk _ _ _ (by omega), get_mk _ _ _ h1]
      omega

/-- C7 witness: at coarse X = 31 (state `(0, 31)`) the increment yields
coarse X = 0 with the horizontal nametable bit flipped to 1; at
coarse X = 10 it yields 11 with the bit unchanged. -/
theorem coarse_x_increment_correct_witness :
    (AddrRegister.mk 0 31 true).coarse_x_increment.coarseX = 0 ∧
    (AddrRegister.mk 0 31 true).coarse_x_increment.ntH = 1 ∧
    (AddrRegister.mk 0 10 true).coarse_x_increment.coarseX = 11 ∧
    (AddrRegister.mk 0 10 true).coarse_x_increment.ntH = 0 := by
  have ha := coarse_x_increment_correct (AddrRegister.mk 0 31 true) (by decide) (by decide)
  have hb := coarse_x_increment_correct (AddrRegister.mk 0 10 true) (by decide) (by decide)
  rw [if_pos (by decide)] at ha
  rw [if_neg (by decide)] at hb
  exact ⟨ha.1.1, ha.1.2.trans (by decide), hb.1.1.trans (by decide), hb.1.2.trans (by decide)⟩

/-- The raw value of a register rebuilt by `set` from a 16-bit word: the or
of the shifted high byte and the low byte is their sum. -/
theorem lor_d (d : Nat) : 256 * (d / 256 % 256) ||| d % 256 = 256 * (d / 256 % 256) + d % 256 :=
  lor256 _ _ (by omega)

set_option maxHeartbeats 1000000 in
/-- C6: `y_increment` on any byte-bounded register state: while fine Y < 7
only fine Y increments; at fine Y = 7 it resets to 0 and coarse Y advances,
wrapping 29 → 0 with a vertical-nametable flip, 31 → 0 without one, and
incrementing otherwise; coarse X, the horizontal nametable bit, bit 15 and
the latch never change. -/
theorem y_increment_correct (r : AddrRegister)
    (h0 : r.value0 < 256) (h1 : r.value1 < 256) :
    (if r.fineY < 7 then
        r.y_increment.fineY = r.fineY + 1 ∧ r.y_increment.coarseY = r.coarseY ∧
          r.y_increment.ntV = r.ntV
      else
        r.y_increment.fineY = 0 ∧
        (if r.coarseY = 29 then
            r.y_increment.coarseY = 0 ∧ r.y_increment.ntV = 1 - r.ntV
          else if r.coarseY = 31 then
            r.y_increment.coarseY = 0 ∧ r.y_increment.ntV = r.ntV
          else
            r.y_increment.coarseY = r.coarseY + 1 ∧ r.y_increment.ntV = r.ntV)) ∧
    r.y_increment.coarseX = r.coarseX ∧
    r.y_increment.ntH = r.ntH ∧
    r.y_increment.bit15 = r.bit15 ∧
    r.y_increment.hi_ptr = r.hi_ptr := by
  obtain ⟨hi, lo, bp⟩ := r
  simp only at h0 h1
  by_cases hf : hi / 16 % 8 = 7
  · -- fine Y = 7: reset fine Y, advance coarse Y
    obtain ⟨h7, b3, r3, hq, hh7, hb3, hr3⟩ :
        ∃ h7 b3 r3, hi = 128 * h7 + 112 + 8 * b3 + r3 ∧ h7 < 2 ∧ b3 < 2 ∧ r3 < 8 :=
      ⟨hi / 128, hi / 8 % 2, hi % 8, by omega, by omega, by omega, by omega⟩
    subst hq
    have hfge : ¬ (AddrRegister.mk (128 * h7 + 112 + 8 * b3 + r3) lo bp).fineY < 7 := by
      show ¬ (128 * h7 + 112 + 8 * b3 + r3) / 16 % 8 < 7
      omega
    rw [if_neg hfge]
    simp only [AddrRegister.y_increment, AddrRegister.get, AddrRegister.set,
      AddrRegister.coarseX, AddrRegister.coarseY, AddrRegister.fineY, AddrRegister.ntH,
      AddrRegister.ntV, AddrRegister.bit15,
      and112, and143, and992, and64543, and255, shl8, shl5, shr5, shr8, lor_d]
    have hA : 128 * ((128 * h7 + 112 + 8 * b3 + r3) / 128 % 2)
        + (128 * h7 + 112 + 8 * b3 + r3) % 16 = 128 * h7 + 8 * b3 + r3 := by
      omega
    rw [hA]
    have hx8 : (128 * h7 + 8 * b3 + r3) ^^^ 8 = 128 * h7 + 8 * (1 - b3) + r3 := by
      have hb8 : r3 < 2 ^ 3 := by
        have hp : (2 : Nat) ^ 3 = 8 := by norm_num
        omega
      have hx := xor_mid 3 (8 * h7) b3 r3 (by omega) hb8
      have e1 : 2 ^ (3 + 1) * (8 * h7) + 2 ^ 3 * b3 + r3 = 128 * h7 + 8 * b3 + r3 := by
        ring
      have e2 : 2 ^ (3 + 1) * (8 * h7) + 2 ^ 3 * (1 - b3) + r3
          = 128 * h7 + 8 * (1 - b3) + r3 := by
        ring
      have e3 : (2 : Nat) ^ 3 = 8 := by norm_num
      rw [e1, e2, e3] at hx
      exact hx
    rw [hx8]
    have hl1 : 256 * (128 * h7 + 112 + 8 * b3 + r3) ||| lo
        = 256 * (128 * h7 + 112 + 8 * b3 + r3) + lo := lor256 _ _ h1
    have hl2 : 256 * (128 * h7 + 8 * b3 + r3) ||| lo
        = 256 * (128 * h7 + 8 * b3 + r3) + lo := lor256 _ _ h1
    have hl3 : 256 * (128 * h7 + 8 * (1 - b3) + r3) ||| lo
        = 256 * (128 * h7 + 8 * (1 - b3) + r3) + lo := lor256 _ _ h1
    simp only [hl1, hl2, hl3, Nat.mul_zero, Nat.or_zero]
    set X := 256 * (128 * h7 + 8 * b3 + r3) + lo with hX
    set Xr := 256 * (128 * h7 + 8 * (1 - b3) + r3) + lo with hXr
    set Xs := 256 * (128 * h7 + 112 + 8 * b3 + r3) + lo with hXs
    set Y := 32 * (X / 32 % 32) / 32 with hY
    clear_value X Xr Xs Y
    rw [if_neg (show ¬ (16 * ((128 * h7 + 112 + 8 * b3 + r3) / 16 % 8) ≠ 112) by omega)]
    by_cases h29 : Y = 29
    · rw [if_pos h29, if_pos (show Xs / 32 % 32 = 29 by omega)]
      try dsimp only
      try simp only [hx8, lor_d]
      clear hfge hA hx8 hl1 hl2 hl3 h0 hf
      refine ⟨⟨?_, ?_, ?_⟩, ?_, ?_, ?_, ?_⟩ <;> first | rfl | trivial | omega
    · by_cases h31 : Y = 31
      · rw [if_neg h29, if_pos h31, if_neg (show ¬ Xs / 32 % 32 = 29 by omega),
            if_pos (show Xs / 32 % 32 = 31 by omega)]
        try dsimp only
        try simp only [hx8, lor_d]
        clear hfge hA hx8 hl1 hl2 hl3 h0 hf
        refine ⟨⟨?_, ?_, ?_⟩, ?_, ?_, ?_, ?_⟩ <;> first | rfl | trivial | omega
      · rw [if_neg h29, if_neg h31, if_neg (show ¬ Xs / 32 % 32 = 29 by omega),
            if_neg (show ¬ Xs / 32 % 32 = 31 by omega)]
        rw [or3 (X / 1024 % 64) (Y + 1) (X % 32) (by omega) (by omega)]
        try dsimp only
        try simp only [hx8, lor_d]
        clear hfge hA hx8 hl1 hl2 hl3 h0 hf
        refine ⟨⟨?_, ?_, ?_⟩, ?_, ?_, ?_, ?_⟩ <;> first | rfl | trivial | omega
  · -- fine Y < 7: plain increment
    have hstep : (AddrRegister.mk hi lo bp).y_increment
        = AddrRegister.mk ((hi + 16) % 256) lo bp := by
      simp only [AddrRegister.y_increment, and112]
      rw [if_pos (by omega : ¬ 16 * (hi / 16 % 8) = 112)]
    have hf7 : (AddrRegister.mk hi lo bp).fineY < 7 := by
      show hi / 16 % 8 < 7
      omega
    rw [hstep, if_pos hf7]
    refine ⟨⟨?_, ?_, ?_⟩, rfl, ?_, ?_, rfl⟩
    · show ((hi + 16) % 256) / 16 % 8 = hi / 16 % 8 + 1
      omega
    · show (AddrRegister.mk ((hi + 16) % 256) lo bp).get / 32 % 32
        = (AddrRegister.mk hi lo bp).get / 32 % 32
      rw [get_mk _ _ _ (by omega), get_mk _ _ _ h1]
      omega
    · show ((hi + 16) % 256) / 8 % 2 = hi / 8 % 2
      omega
    · show ((hi + 16) % 256) / 4 % 2 = hi / 4 % 2
      omega
    · show ((hi + 16) % 256) / 128 = hi / 128
      omega

/-- C6 witness: from fine Y = 7, coarse Y = 29 (state `(0x73, 0xA0)`) the
increment yields fine Y = 0, coarse Y = 0 with the vertical nametable bit
flipped on; from fine Y = 3 (state `(0x30, 0)`) it only increments fine Y. -/
theorem y_increment_correct_witness :
    (AddrRegister.mk 0x73 0xA0 true).y_increment.fineY = 0 ∧
    (AddrRegister.mk 0x73 0xA0 true).y_increment.coarseY = 0 ∧
    (AddrRegister.mk 0x73 0xA0 true).y_increment.ntV = 1 ∧
    (AddrRegister.mk 0x30 0 true).y_increment.fineY = 4 ∧
    (AddrRegister.mk 0x30 0 true).y_increment.coarseY = 0 := by
  have ha := y_increment_correct (AddrRegister.mk 0x73 0xA0 true) (by decide) (by decide)
  have hb := y_increment_correct (AddrRegister.mk 0x30 0 true) (by decide) (by decide)
  rw [if_neg (by decide)] at ha
  rw [if_pos (by decide)] at ha
  rw [if_pos (by decide)] at hb
  exact ⟨ha.1.1, ha.1.2.1, ha.1.2.2.trans (by decide),
         hb.1.1.trans (by decide), hb.1.2.1.trans (by decide)⟩

/-- First $2006 write (toggle in first-write state): the toggle is set and
`t` becomes the low 6 bits of the value in bits 8-13 over an untouched low
byte; `v` is untouched. -/
theorem write_twice6_first (p : PPU) (a : Nat) (hw : p.w_toggle = false) :
    (PPU.write_twice 6 a p).w_toggle = true ∧
    (PPU.write_twice 6 a p).temp_vram_addr = 256 * (a % 64) + p.temp_vram_addr % 256 ∧
    (PPU.write_twice 6 a p).vram_addr = p.vram_addr := by
  simp [PPU.write_twice, hw]
  rw [and255, and63, shl8, Nat.lor_comm, lor256 _ _ (by omega)]

/-- Second $2006 write (toggle set): the toggle clears, the low byte of `t`
is replaced, bit 14 of `t` is dropped, and `v` receives `t` in full. -/
theorem write_twice6_second (p : PPU) (b : Nat) (hb : b < 256) (hw : p.w_toggle = true) :
    (PPU.write_twice 6 b p).w_toggle = false ∧
    (PPU.write_twice 6 b p).temp_vram_addr = 256 * (p.temp_vram_addr / 256 % 128) + b ∧
    (PPU.write_twice 6 b p).vram_addr = (PPU.write_twice 6 b p).temp_vram_addr := by
  simp [PPU.write_twice, hw]
  rw [and32512, lor256 _ _ hb]

/-- C1 (amended): the two-step $2006 protocol.  From first-write state, the
first write puts the low 6 bits of the value into bits 8-13 of `t` (bits
above are cleared — `t / 256` is exactly the low 6 bits) without touching
the low byte; the second write sets the low 8 bits and copies `t` into `v`
in full; the toggle returns to first-write state, and a third write behaves
as a first write.  (Writing `$20` then `$00` hence yields `v = 0x2000`; the
claim's `$80` example is off, since `0x80 &&& 0x3F = 0`.) -/
theorem write_twice_addr_protocol (p : PPU) (a b : Nat)
    (hb : b < 256) (hw : p.w_toggle = false) :
    (PPU.write_twice 6 a p).w_toggle = true ∧
    (PPU.write_twice 6 a p).temp_vram_addr / 256 = a % 64 ∧
    (PPU.write_twice 6 a p).temp_vram_addr % 256 = p.temp_vram_addr % 256 ∧
    (PPU.write_twice 6 b (PPU.write_twice 6 a p)).temp_vram_addr = 256 * (a % 64) + b ∧
    (PPU.write_twice 6 b (PPU.write_twice 6 a p)).vram_addr = 256 * (a % 64) + b ∧
    (PPU.write_twice 6 b (PPU.write_twice 6 a p)).w_toggle = false ∧
    (∀ e, (PPU.write_twice 6 e (PPU.write_twice 6 b (PPU.write_twice 6 a p))).w_toggle = true ∧
      (PPU.write_twice 6 e (PPU.write_twice 6 b (PPU.write_twice 6 a p))).temp_vram_addr
        = 256 * (e % 64) + (256 * (a % 64) + b) % 256) := by
  obtain ⟨hw1, ht1, _⟩ := write_twice6_first p a hw
  obtain ⟨hw2, ht2, hv2⟩ := write_twice6_second (PPU.write_twice 6 a p) b hb hw1
  have ht2' : (PPU.write_twice 6 b (PPU.write_twice 6 a p)).temp_vram_addr
      = 256 * (a % 64) + b := by
    rw [ht2, ht1]
    omega
  refine ⟨hw1, ?_, ?_, ht2', hv2.trans ht2', hw2, ?_⟩
  · rw [ht1]
    omega
  · rw [ht1]
    omega
  · intro e
    obtain ⟨hw3, ht3, _⟩ := write_twice6_first _ e hw2
    exact ⟨hw3, by rw [ht3, ht2']⟩

/-- C1 counterexample: from power-on, writing `$80` then `$00` to $2006
leaves `v = 0x0000`, not `0x2000` — the first write keeps only the low 6
bits of `$80`, which are 0. -/
theorem write_twice_80_counterexample :
    (PPU.write_twice 6 0x00 (PPU.write_twice 6 0x80 PPU.new)).vram_addr = 0 ∧
    (PPU.write_twice 6 0x00 (PPU.write_twice 6 0x80 PPU.new)).vram_addr ≠ 0x2000 := by
  exact ⟨rfl, by decide⟩

/-- C1 witness: writing `$20` then `$00` from power-on yields `v = 0x2000`
with the toggle back in first-write state, and a third write sets the
toggle again (first-write behaviour). -/
theorem write_twice_addr_protocol_witness :
    (PPU.write_twice 6 0x20 PPU.new).w_toggle = true ∧
    (PPU.write_twice 6 0 (PPU.write_twice 6 0x20 PPU.new)).vram_addr = 0x2000 ∧
    (PPU.write_twice 6 0 (PPU.write_twice 6 0x20 PPU.new)).w_toggle = false ∧
    (PPU.write_twice 6 0x15
      (PPU.write_twice 6 0 (PPU.write_twice 6 0x20 PPU.new))).w_toggle = true := by
  have h := write_twice_addr_protocol PPU.new 0x20 0 (by decide) rfl
  exact ⟨h.1, h.2.2.2.2.1.trans (by decide), h.2.2.2.2.2.1, (h.2.2.2.2.2.2 0x15).1⟩

/-- Bus reads inside RAM space return the mirrored RAM byte and leave the
whole machine untouched. -/
theorem bus_read_ram (addr : Nat) (s : BUS) (h : addr ≤ 0x1FFF) :
    BUS.read addr s = (s.ram (addr &&& 0x7FF), s) := by
  unfold BUS.read
  rw [if_neg (by omega : ¬ (0x2008 ≤ addr ∧ addr ≤ 0x3FFF))]
  unfold BUS.readCore
  rw [if_pos h]

/-- An OAM-data write with the suppression gate closed stores the byte and
advances the cursor. -/
theorem write_to_oam_store (val : Nat) (p : PPUSpec)
    (h : p.oam_write_suppressed = false) :
    p.write_to_oam val = { p with oam := updf p.oam p.oam_addr val,
                                  oam_addr := (p.oam_addr + 1) % 256 } := by
  simp [PPUSpec.write_to_oam, h]

/-- Invariant of the $4014 DMA loop: after `k` of the 256 read/write pairs
(from a state whose OAM writes are not suppressed, with the source page in
RAM), RAM, `suspend` and the write gate are untouched, the cursor has
advanced by `k` mod 256, and the first `k` OAM slots from the starting
cursor hold the source bytes in order. -/
theorem dma_loop_spec (s0 : BUS) (base c : Nat)
    (hb : base + 256 ≤ 0x2000) (hsup : s0.ppu.oam_write_suppressed = false)
    (hc : s0.ppu.oam_addr = c) (hc2 : c < 256) :
    ∀ k, k ≤ 256 →
      (∀ x, (BUS.dmaLoop base s0 k).ram x = s0.ram x) ∧
      (BUS.dmaLoop base s0 k).ppu.oam_addr = (c + k) % 256 ∧
      (BUS.dmaLoop base s0 k).ppu.oam_write_suppressed = false ∧
      (BUS.dmaLoop base s0 k).suspend = s0.suspend ∧
      (∀ j, j < k → (BUS.dmaLoop base s0 k).ppu.oam ((c + j) % 256)
          = s0.ram ((base + j) &&& 0x7FF)) := by
  intro k
  induction k with
  | zero =>
    intro _
    refine ⟨fun x => rfl, ?_, hsup, rfl, fun j hj => absurd hj (by omega)⟩
    show s0.ppu.oam_addr = (c + 0) % 256
    omega
  | succ k ih =>
    intro hk1
    obtain ⟨iram, iaddr, isup, isus, ioam⟩ := ih (by omega)
    have hread := bus_read_ram (base + k) (BUS.dmaLoop base s0 k) (by omega)
    have hstep : BUS.dmaLoop base s0 (k + 1)
        = BUS.write2004 ((BUS.dmaLoop base s0 k).ram ((base + k) &&& 0x7FF))
            (BUS.dmaLoop base s0 k) := by
      show BUS.dmaStep base k (BUS.dmaLoop base s0 k) = _
      unfold BUS.dmaStep
      rw [hread]
    have hoamw := write_to_oam_store
      ((BUS.dmaLoop base s0 k).ram ((base + k) &&& 0x7FF))
      (BUS.dmaLoop base s0 k).ppu isup
    rw [hstep]
    unfold BUS.write2004
    rw [hoamw]
    refine ⟨fun x => iram x, ?_, isup, isus, ?_⟩
    · show ((BUS.dmaLoop base s0 k).ppu.oam_addr + 1) % 256 = (c + (k + 1)) % 256
      rw [iaddr]
      omega
    · intro j hj
      show updf (BUS.dmaLoop base s0 k).ppu.oam (BUS.dmaLoop base s0 k).ppu.oam_addr
        ((BUS.dmaLoop base s0 k).ram ((base + k) &&& 0x7FF)) ((c + j) % 256)
          = s0.ram ((base + j) &&& 0x7FF)
      unfold updf
      rw [iaddr]
      rcases Nat.lt_or_ge j k with hjk | hjk
      · rw [if_neg (by omega : ¬ (c + j) % 256 = (c + k) % 256)]
        exact ioam j hjk
      · have hjk' : j = k := by omega
        subst hjk'
        rw [if_pos rfl]
        exact iram _

/-- C9: a $4014 write sets the DMA-stall flag and copies the 256 bytes of
the selected page, in source order, into OAM starting at the current
cursor via the 256 sequential read/write pairs, advancing the cursor per
the normal $2004-write rule (so it returns to its start after the full
page); RAM is untouched.  Stated for pages residing in RAM and a state
whose OAM writes are not suppressed. -/
theorem bus_dma_copies (s : BUS) (P c : Nat) (hP : P ≤ 0x1F)
    (hsup : s.ppu.oam_write_suppressed = false)
    (hc : s.ppu.oam_addr = c) (hc2 : c < 256) :
    (BUS.write 0x4014 P s).suspend = true ∧
    (∀ i, i < 256 → (BUS.write 0x4014 P s).ppu.oam ((c + i) % 256)
        = s.ram ((P * 256 + i) % 2048)) ∧
    (BUS.write 0x4014 P s).ppu.oam_addr = c ∧
    (∀ x, (BUS.write 0x4014 P s).ram x = s.ram x) := by
  have hbase : (P &&& 0xFF) <<< 8 = P * 256 := by
    rw [and255, shl8]
    omega
  have hw : BUS.write 0x4014 P s
      = BUS.dmaLoop ((P &&& 0xFF) <<< 8) { s with suspend := true } 256 := rfl
  rw [hw, hbase]
  obtain ⟨iram, iaddr, _, isus, ioam⟩ :=
    dma_loop_spec { s with suspend := true } (P * 256) c (by omega) hsup hc hc2 256 (by omega)
  refine ⟨isus, ?_, ?_, iram⟩
  · intro i hi
    have h := ioam i hi
    rw [and2047] at h
    exact h
  · rw [iaddr]
    omega

set_option maxRecDepth 100000 in
/-- C9 witness: with RAM page 2 preset to 0..255 and the cursor at 0,
writing `$02` to $4014 sets `suspend` and yields `oam[i] = i`. -/
theorem bus_dma_copies_witness :
    (BUS.write 0x4014 2 busExample).suspend = true ∧
    (BUS.write 0x4014 2 busExample).ppu.oam 0 = 0 ∧
    (BUS.write 0x4014 2 busExample).ppu.oam 37 = 37 ∧
    (BUS.write 0x4014 2 busExample).ppu.oam 255 = 255 ∧
    (BUS.write 0x4014 2 busExample).ppu.oam_addr = 0 := by
  have h := bus_dma_copies busExample 2 0 (by decide) (by decide) rfl (by decide)
  refine ⟨h.1, ?_, ?_, ?_, h.2.2.1⟩
  · simpa [busExample] using h.2.1 0 (by decide)
  · simpa [busExample] using h.2.1 37 (by decide)
  · simpa [busExample] using h.2.1 255 (by decide)

/-- C10: writes to the read-only Status register ($2002) or to any
unmapped address in $4000-$4013, $4015 or $4017-$401F fall through the
dispatch and change nothing at all. -/
theorem bus_write_noop (addr val : Nat) (s : BUS)
    (h : addr = 0x2002 ∨ (0x4000 ≤ addr ∧ addr ≤ 0x4013) ∨ addr = 0x4015 ∨
         (0x4017 ≤ addr ∧ addr ≤ 0x401F)) :
    BUS.write addr val s = s := by
  rcases h with h | h | h | h
  · subst h
    rfl
  · obtain ⟨ha, hb⟩ := h
    interval_cases addr <;> rfl
  · subst h
    rfl
  · obtain ⟨ha, hb⟩ := h
    interval_cases addr <;> rfl

/-- C10 witness: a write of 5 to $2002 leaves the whole bus state intact. -/
theorem bus_write_noop_witness : BUS.write 0x2002 5 busExample = busExample :=
  bus_write_noop 0x2002 5 busExample (Or.inl rfl)
